import Mathlib

/-!
# mcp-go: the message dispatcher of the MCP server

A shallow embedding of `main.go`: the envelope types (`MCPMessage`, `MCPError`,
`Tool`), the dynamically typed payloads (`interface{}`) and the four handlers
`handleMessage`, `handleInitialize`, `handleToolsList`, `handleToolCall`.

Pointers returned by the handlers (`*MCPMessage`) are `Option MCPMessage`; the
wall clock read by `time.Now()` is an explicit argument. The JSON encoding of the
envelope, fixed by the `json` tags of the records, is modelled on parsed documents.
-/

namespace MCP

/-! ## Dynamic values -/

mutual
/-- The dynamic values an `interface{}` holds in this program, tagged by their
Go dynamic type. A map is an association list read by first match. -/
inductive Value where
  /-- The nil interface: an absent field. -/
  | nil : Value
  /-- A Go `bool`. -/
  | bool (b : Bool) : Value
  /-- A Go `int`, as the literals of the tests hold (`ID: 1`). -/
  | num (n : Int) : Value
  /-- A finite `float64`, by its exact value: what a decoded JSON number holds. -/
  | float64 (x : ℚ) : Value
  /-- A Go `string`. -/
  | str (s : String) : Value
  /-- A `[]interface{}`. -/
  | slice (xs : List Value) : Value
  /-- A `map[string]interface{}`. -/
  | map (kvs : List (String × Value)) : Value
  /-- A `[]map[string]interface{}`. -/
  | mapSlice (xs : List (List (String × Value))) : Value
  /-- A `[]string`. -/
  | strSlice (xs : List String) : Value
  /-- A `[]Tool`. -/
  | toolSlice (xs : List Tool) : Value
/-- The record `Tool` of main.go: an entry of the catalog. -/
inductive Tool where
  | mk (name : String) (description : String) (inputSchema : Value) : Tool
end

/-- Field `Name` of a `Tool`. -/
def Tool.name : Tool → String
  | .mk n _ _ => n

/-- Field `Description` of a `Tool`. -/
def Tool.description : Tool → String
  | .mk _ d _ => d

/-- Field `InputSchema` of a `Tool`. -/
def Tool.inputSchema : Tool → Value
  | .mk _ _ v => v

/-- The type assertion `v.(map[string]interface{})`: the map, when `v` holds one. -/
def Value.asMap : Value → Option (List (String × Value))
  | .map kvs => some kvs
  | _ => none

/-- The type assertion `v.(string)`: the string, when `v` holds one. -/
def Value.asString : Value → Option String
  | .str s => some s
  | _ => none

/-- The type assertion `v.([]map[string]interface{})`. -/
def Value.asMapSlice : Value → Option (List (List (String × Value)))
  | .mapSlice xs => some xs
  | _ => none

/-- The type assertion `v.([]Tool)`. -/
def Value.asToolSlice : Value → Option (List Tool)
  | .toolSlice xs => some xs
  | _ => none

/-- The map index `m[k]`: the value stored under `k`, the nil interface when the
key is missing (and on a nil map). -/
def mapIndex : List (String × Value) → String → Value
  | [], _ => .nil
  | (k, v) :: rest, key => if k = key then v else mapIndex rest key

/-! ## Envelopes -/

/-- The record `MCPError` of main.go. -/
structure MCPError where
  code : Int
  message : String
  data : Value := .nil

/-- The record `MCPMessage` of main.go. An unset field holds its zero value:
the nil interface, the empty string, the nil pointer. -/
structure MCPMessage where
  jsonrpc : String := ""
  id : Value := .nil
  method : String := ""
  params : Value := .nil
  result : Value := .nil
  error : Option MCPError := none

/-! ## The clock -/

/-- A reading of the wall clock, in civil fields; `offset` is the zone offset in
seconds east of UTC. -/
structure Time where
  year : Nat
  month : Nat
  day : Nat
  hour : Nat
  minute : Nat
  second : Nat
  offset : Int

/-- Decimal digits of `n`, padded with zeros on the left to `width` places. -/
def appendInt (n width : Nat) : String :=
  let digits := toString n
  String.mk (List.replicate (width - digits.length) '0') ++ digits

/-- Modelled from the spec: the standard library call `Format(time.RFC3339)` is not
among the sources; this is the layout `2006-01-02T15:04:05Z07:00` the spec names
(for example `2024-01-15T10:30:00Z`): the zone is `Z` at offset zero, and a signed
`hh:mm` otherwise. -/
def Time.formatRFC3339 (t : Time) : String :=
  let zone : String :=
    if t.offset = 0 then "Z"
    else
      let minutes := Int.tdiv t.offset 60
      let sign := if minutes < 0 then "-" else "+"
      let m := minutes.natAbs
      sign ++ appendInt (m / 60) 2 ++ ":" ++ appendInt (m % 60) 2
  appendInt t.year 4 ++ "-" ++ appendInt t.month 2 ++ "-" ++ appendInt t.day 2 ++ "T"
    ++ appendInt t.hour 2 ++ ":" ++ appendInt t.minute 2 ++ ":" ++ appendInt t.second 2
    ++ zone

/-! ## Handlers -/

/-- The handler `handleInitialize` of main.go. -/
def handleInitialize (msg : MCPMessage) : Option MCPMessage :=
  some {
    jsonrpc := "2.0"
    id := msg.id
    result := .map [
      ("protocolVersion", .str "2024-11-05"),
      ("capabilities", .map [
        ("tools", .map [])]),
      ("serverInfo", .map [
        ("name", .str "mcp-go-server"),
        ("version", .str "1.0.0")])] }

/-- The handler `handleToolsList` of main.go. -/
def handleToolsList (msg : MCPMessage) : Option MCPMessage :=
  let tools : List Tool := [
    .mk "echo" "Echo back the input message" (.map [
      ("type", .str "object"),
      ("properties", .map [
        ("message", .map [
          ("type", .str "string"),
          ("description", .str "The message to echo back")])]),
      ("required", .strSlice ["message"])]),
    .mk "timestamp" "Get the current timestamp" (.map [
      ("type", .str "object"),
      ("properties", .map [])])]
  some {
    jsonrpc := "2.0"
    id := msg.id
    result := .map [("tools", .toolSlice tools)] }

/-- The handler `handleToolCall` of main.go; `now` is what `time.Now()` reads.
The switch either leaves a `result` or returns its own response; `err` is the
variable `err` of the source, which no branch assigns. -/
def handleToolCall (now : Time) (msg : MCPMessage) : Option MCPMessage :=
  match msg.params.asMap with
  | none =>
    some {
      jsonrpc := "2.0"
      id := msg.id
      error := some { code := -32602, message := "Invalid params" } }
  | some params =>
    match (mapIndex params "name").asString with
    | none =>
      some {
        jsonrpc := "2.0"
        id := msg.id
        error := some { code := -32602, message := "Tool name is required" } }
    | some name =>
      let arguments : List (String × Value) := ((mapIndex params "arguments").asMap).getD []
      let err : Option String := none
      let switch : Except MCPMessage Value :=
        if name = "echo" then
          let message : String := ((mapIndex arguments "message").asString).getD ""
          .ok (.map [
            ("content", .mapSlice [[
              ("type", .str "text"),
              ("text", .str ("Echo: " ++ message))]])])
        else if name = "timestamp" then
          .ok (.map [
            ("content", .mapSlice [[
              ("type", .str "text"),
              ("text", .str ("Current timestamp: " ++ now.formatRFC3339))]])])
        else
          .error {
            jsonrpc := "2.0"
            id := msg.id
            error := some { code := -32601, message := "Tool not found: " ++ name } }
      match switch with
      | .error response => some response
      | .ok result =>
        match err with
        | some e =>
          some {
            jsonrpc := "2.0"
            id := msg.id
            error := some { code := -32603, message := "Tool execution failed: " ++ e } }
        | none =>
          some {
            jsonrpc := "2.0"
            id := msg.id
            result := result }

/-- The dispatcher `handleMessage` of main.go: a switch on the method name. -/
def handleMessage (now : Time) (msg : MCPMessage) : Option MCPMessage :=
  if msg.method = "initialize" then handleInitialize msg
  else if msg.method = "tools/list" then handleToolsList msg
  else if msg.method = "tools/call" then handleToolCall now msg
  else
    some {
      jsonrpc := "2.0"
      id := msg.id
      error := some { code := -32601, message := "Method not found: " ++ msg.method } }

/-- The text the tests read off a response: `Result.(map)["content"].([]map)[0]["text"].(string)`. -/
def contentText (response : MCPMessage) : Option String :=
  match response.result.asMap with
  | none => none
  | some result =>
    match (mapIndex result "content").asMapSlice with
    | none => none
    | some content =>
      match content with
      | [] => none
      | block :: _ => (mapIndex block "text").asString

/-- The catalog the tests read off a response: `Result.(map)["tools"].([]Tool)`. -/
def toolsOf (response : MCPMessage) : Option (List Tool) :=
  match response.result.asMap with
  | none => none
  | some result => (mapIndex result "tools").asToolSlice

/-- The message the echo branch of `handleToolCall` reads from `params`: the
assertions `params["arguments"].(map[string]interface{})` and
`arguments["message"].(string)`, each leaving the zero value when it fails. -/
def echoMessage (params : List (String × Value)) : String :=
  ((mapIndex (((mapIndex params "arguments").asMap).getD []) "message").asString).getD ""

/-! ## The wire format

`MCPMessage`, `MCPError` and `Tool` carry `json` tags; the encoder and decoder that read
them belong to the standard library. They are modelled here on parsed documents. -/

/-- A parsed JSON document. A number literal is kept by what it stands for: the decimal
literal of an integer, or the literal printed for a `float64`. The members of an object
are listed in the order of the mapping they come from. -/
inductive JSON where
  | null : JSON
  | bool (b : Bool) : JSON
  | intLit (n : Int) : JSON
  | floatLit (x : ℚ) : JSON
  | string (s : String) : JSON
  | array (items : List JSON) : JSON
  | object (members : List (String × JSON)) : JSON

mutual
/-- Modelled from the spec: the encoder `json.Marshal` is not among the sources. A value
is written by its dynamic type: a mapping as an object, every kind of slice as an array,
a `Tool` as the object of its three tagged fields `name`, `description`, `inputSchema`. -/
def encodeValue : Value → JSON
  | .nil => .null
  | .bool b => .bool b
  | .num n => .intLit n
  | .float64 x => .floatLit x
  | .str s => .string s
  | .slice xs => .array (encodeValues xs)
  | .map kvs => .object (encodeMembers kvs)
  | .mapSlice ms => .array (encodeMaps ms)
  | .strSlice ss => .array (ss.map JSON.string)
  | .toolSlice ts => .array (encodeTools ts)
/-- The elements of a `[]interface{}`, encoded in order. -/
def encodeValues : List Value → List JSON
  | [] => []
  | v :: vs => encodeValue v :: encodeValues vs
/-- The members of a `map[string]interface{}`, encoded. -/
def encodeMembers : List (String × Value) → List (String × JSON)
  | [] => []
  | (k, v) :: kvs => (k, encodeValue v) :: encodeMembers kvs
/-- The elements of a `[]map[string]interface{}`, encoded in order. -/
def encodeMaps : List (List (String × Value)) → List JSON
  | [] => []
  | m :: ms => .object (encodeMembers m) :: encodeMaps ms
/-- A `Tool`, encoded by the tags of its fields; none of them has `omitempty`. -/
def encodeTool : Tool → JSON
  | .mk n d v =>
    .object [("name", .string n), ("description", .string d), ("inputSchema", encodeValue v)]
/-- The elements of a `[]Tool`, encoded in order. -/
def encodeTools : List Tool → List JSON
  | [] => []
  | t :: ts => encodeTool t :: encodeTools ts
end

/-- The `float64` nearest to the integer `n`: `n` itself below `2 ^ 53`, and otherwise `n`
rounded to 53 significant bits, a tie going to the even neighbour. -/
def roundToFloat64 (n : Int) : Int :=
  let a := n.natAbs
  if a < 2 ^ 53 then n
  else
    let shift := Nat.log2 a + 1 - 53
    let q := a / 2 ^ shift
    let r := a % 2 ^ shift
    let half := 2 ^ (shift - 1)
    let q1 := if r > half ∨ (r = half ∧ q % 2 = 1) then q + 1 else q
    n.sign * ((q1 * 2 ^ shift : Nat) : Int)

mutual
/-- Modelled from the spec: the decoder `json.Unmarshal` is not among the sources. Into an
`interface{}` it stores `nil` for null, a `bool`, a `float64` for every number, a `string`,
a `[]interface{}` for an array and a `map[string]interface{}` for an object. -/
def decodeValue : JSON → Value
  | .null => .nil
  | .bool b => .bool b
  | .intLit n => .float64 (roundToFloat64 n)
  | .floatLit x => .float64 x
  | .string s => .str s
  | .array items => .slice (decodeValues items)
  | .object members => .map (decodeMembers members)
/-- The items of an array, decoded in order. -/
def decodeValues : List JSON → List Value
  | [] => []
  | j :: js => decodeValue j :: decodeValues js
/-- The members of an object, decoded. -/
def decodeMembers : List (String × JSON) → List (String × Value)
  | [] => []
  | (k, j) :: rest => (k, decodeValue j) :: decodeMembers rest
end

/-- Whether an `interface{}` is the nil interface, the empty value of `omitempty`. -/
def Value.isNil : Value → Bool
  | .nil => true
  | _ => false

/-- A field of type `interface{}` tagged `omitempty`: left out when it is nil. -/
def omitEmpty (key : String) (v : Value) : List (String × JSON) :=
  if v.isNil then [] else [(key, encodeValue v)]

/-- The encoding of an `MCPError`, by its tags: `code`, `message`, `data,omitempty`. -/
def marshalError (e : MCPError) : JSON :=
  .object ([("code", .intLit e.code), ("message", .string e.message)] ++ omitEmpty "data" e.data)

/-- The encoding of an `MCPMessage`, by its tags: `jsonrpc` always, then `id`, `method`,
`params`, `result`, `error`, each left out when empty. -/
def marshal (msg : MCPMessage) : JSON :=
  .object ([("jsonrpc", .string msg.jsonrpc)]
    ++ omitEmpty "id" msg.id
    ++ (if msg.method = "" then [] else [("method", .string msg.method)])
    ++ omitEmpty "params" msg.params
    ++ omitEmpty "result" msg.result
    ++ (match msg.error with
        | none => []
        | some e => [("error", marshalError e)]))

/-- The member of an object stored under `key`, as the encoder writes it. -/
def JSON.member : List (String × JSON) → String → Option JSON
  | [], _ => none
  | (k, j) :: rest, key => if k = key then some j else JSON.member rest key

/-- Decoding into a `string` field that holds "": a missing member and null leave it, a
string sets it, anything else is a type error. -/
def decodeString : Option JSON → Option String
  | none => some ""
  | some .null => some ""
  | some (.string s) => some s
  | some _ => none

/-- Decoding into an `int` field that holds 0: only an integer literal sets it. -/
def decodeInt : Option JSON → Option Int
  | none => some 0
  | some .null => some 0
  | some (.intLit n) => some n
  | some _ => none

/-- Decoding into an `interface{}` field that holds nil. -/
def decodeInterface : Option JSON → Value
  | none => .nil
  | some j => decodeValue j

/-- Decoding into the field `Error *MCPError`: a missing member and null leave the nil
pointer, an object fills a fresh `MCPError`. -/
def unmarshalError : Option JSON → Option (Option MCPError)
  | none => some none
  | some .null => some none
  | some (.object members) =>
    match decodeInt (JSON.member members "code"),
      decodeString (JSON.member members "message") with
    | some code, some message =>
      some (some {
        code := code
        message := message
        data := decodeInterface (JSON.member members "data") })
    | _, _ => none
  | some _ => none

/-- Decoding a document into a zero `MCPMessage`, as `TestMCPMessage` does; `none` is a
decoding error. -/
def unmarshal (doc : JSON) : Option MCPMessage :=
  match doc with
  | .null => some {}
  | .object members =>
    match decodeString (JSON.member members "jsonrpc"),
      decodeString (JSON.member members "method"),
      unmarshalError (JSON.member members "error") with
    | some jsonrpc, some method, some error =>
      some {
        jsonrpc := jsonrpc
        id := decodeInterface (JSON.member members "id")
        method := method
        params := decodeInterface (JSON.member members "params")
        result := decodeInterface (JSON.member members "result")
        error := error }
    | _, _, _ => none
  | _ => none

mutual
/-- Whether a value is built from the dynamic types the decoder produces only: nil,
`bool`, `float64`, `string`, `[]interface{}`, `map[string]interface{}`. -/
def Value.decoded : Value → Bool
  | .nil => true
  | .bool _ => true
  | .float64 _ => true
  | .str _ => true
  | .slice xs => decodedAll xs
  | .map kvs => decodedMembers kvs
  | .num _ => false
  | .mapSlice _ => false
  | .strSlice _ => false
  | .toolSlice _ => false
/-- Every element of the list is `decoded`. -/
def decodedAll : List Value → Bool
  | [] => true
  | v :: vs => v.decoded && decodedAll vs
/-- Every value of the mapping is `decoded`. -/
def decodedMembers : List (String × Value) → Bool
  | [] => true
  | (_, v) :: kvs => v.decoded && decodedMembers kvs
end

/-- Whether the payloads of an envelope (id, params, result, and the data of the error)
are all `decoded`. -/
def MCPMessage.decoded (msg : MCPMessage) : Bool :=
  msg.id.decoded && msg.params.decoded && msg.result.decoded &&
    (match msg.error with
      | none => true
      | some e => e.data.decoded)

/-! ## Routing and the branches of `handleToolCall` -/

theorem handleMessage_toolCall (now : Time) (msg : MCPMessage)
    (h : msg.method = "tools/call") : handleMessage now msg = handleToolCall now msg := by
  simp [handleMessage, h]

theorem handleMessage_init (now : Time) (msg : MCPMessage)
    (h : msg.method = "initialize") : handleMessage now msg = handleInitialize msg := by
  simp [handleMessage, h]

theorem handleMessage_toolsList (now : Time) (msg : MCPMessage)
    (h : msg.method = "tools/list") : handleMessage now msg = handleToolsList msg := by
  simp [handleMessage, h]

theorem handleMessage_default (now : Time) (msg : MCPMessage)
    (h1 : msg.method ≠ "initialize") (h2 : msg.method ≠ "tools/list")
    (h3 : msg.method ≠ "tools/call") :
    handleMessage now msg = some {
      jsonrpc := "2.0"
      id := msg.id
      error := some { code := -32601, message := "Method not found: " ++ msg.method } } := by
  simp [handleMessage, h1, h2, h3]

theorem handleToolCall_invalidParams (now : Time) (msg : MCPMessage)
    (h : msg.params.asMap = none) :
    handleToolCall now msg = some {
      jsonrpc := "2.0"
      id := msg.id
      error := some { code := -32602, message := "Invalid params" } } := by
  simp [handleToolCall, h]

theorem handleToolCall_nameRequired (now : Time) (msg : MCPMessage)
    (params : List (String × Value)) (h : msg.params.asMap = some params)
    (hname : (mapIndex params "name").asString = none) :
    handleToolCall now msg = some {
      jsonrpc := "2.0"
      id := msg.id
      error := some { code := -32602, message := "Tool name is required" } } := by
  simp [handleToolCall, h, hname]

theorem handleToolCall_echo (now : Time) (msg : MCPMessage)
    (params : List (String × Value)) (h : msg.params.asMap = some params)
    (hname : (mapIndex params "name").asString = some "echo") :
    handleToolCall now msg = some {
      jsonrpc := "2.0"
      id := msg.id
      result := .map [
        ("content", .mapSlice [[
          ("type", .str "text"),
          ("text", .str ("Echo: " ++
            ((mapIndex ((mapIndex params "arguments").asMap.getD []) "message").asString).getD ""))]])] } := by
  simp [handleToolCall, h, hname]

theorem handleToolCall_timestamp (now : Time) (msg : MCPMessage)
    (params : List (String × Value)) (h : msg.params.asMap = some params)
    (hname : (mapIndex params "name").asString = some "timestamp") :
    handleToolCall now msg = some {
      jsonrpc := "2.0"
      id := msg.id
      result := .map [
        ("content", .mapSlice [[
          ("type", .str "text"),
          ("text", .str ("Current timestamp: " ++ now.formatRFC3339))]])] } := by
  simp [handleToolCall, h, hname]

theorem handleToolCall_toolNotFound (now : Time) (msg : MCPMessage)
    (params : List (String × Value)) (name : String) (h : msg.params.asMap = some params)
    (hname : (mapIndex params "name").asString = some name)
    (h1 : name ≠ "echo") (h2 : name ≠ "timestamp") :
    handleToolCall now msg = some {
      jsonrpc := "2.0"
      id := msg.id
      error := some { code := -32601, message := "Tool not found: " ++ name } } := by
  simp [handleToolCall, h, hname, h1, h2]

theorem asMap_eq_none_iff (v : Value) : v.asMap = none ↔ ∀ kvs, v ≠ Value.map kvs := by
  cases v <;> simp [Value.asMap]

theorem asString_eq_none_iff (v : Value) : v.asString = none ↔ ∀ s, v ≠ Value.str s := by
  cases v <;> simp [Value.asString]

theorem asString_mapIndex_nil (key : String) : (mapIndex [] key).asString = none := rfl

/-- Every response of `handleToolCall`: the fixed tag, the id of the request, no method
and no params, and either a mapping as result and no error, or no result and an error
whose code is -32601 or -32602. -/
theorem handleToolCall_shape (now : Time) (msg : MCPMessage) :
    ∃ response, handleToolCall now msg = some response ∧ response.jsonrpc = "2.0" ∧
      response.id = msg.id ∧ response.method = "" ∧ response.params = Value.nil ∧
      ((response.error = none ∧ ∃ kvs, response.result = Value.map kvs) ∨
        (response.result = Value.nil ∧
          ∃ e, response.error = some e ∧ (e.code = -32601 ∨ e.code = -32602))) := by
  cases hparams : msg.params.asMap with
  | none =>
    exact ⟨_, handleToolCall_invalidParams now msg hparams, rfl, rfl, rfl, rfl,
      Or.inr ⟨rfl, _, rfl, Or.inr rfl⟩⟩
  | some params =>
    cases hname : (mapIndex params "name").asString with
    | none =>
      exact ⟨_, handleToolCall_nameRequired now msg params hparams hname, rfl, rfl, rfl, rfl,
        Or.inr ⟨rfl, _, rfl, Or.inr rfl⟩⟩
    | some name =>
      by_cases h1 : name = "echo"
      · subst h1
        exact ⟨_, handleToolCall_echo now msg params hparams hname, rfl, rfl, rfl, rfl,
          Or.inl ⟨rfl, _, rfl⟩⟩
      · by_cases h2 : name = "timestamp"
        · subst h2
          exact ⟨_, handleToolCall_timestamp now msg params hparams hname, rfl, rfl, rfl, rfl,
            Or.inl ⟨rfl, _, rfl⟩⟩
        · exact ⟨_, handleToolCall_toolNotFound now msg params name hparams hname h1 h2,
            rfl, rfl, rfl, rfl, Or.inr ⟨rfl, _, rfl, Or.inl rfl⟩⟩

/-- Every response of `handleMessage` has the shape described for `handleToolCall`. -/
theorem handleMessage_shape (now : Time) (msg : MCPMessage) :
    ∃ response, handleMessage now msg = some response ∧ response.jsonrpc = "2.0" ∧
      response.id = msg.id ∧ response.method = "" ∧ response.params = Value.nil ∧
      ((response.error = none ∧ ∃ kvs, response.result = Value.map kvs) ∨
        (response.result = Value.nil ∧
          ∃ e, response.error = some e ∧ (e.code = -32601 ∨ e.code = -32602))) := by
  by_cases h1 : msg.method = "initialize"
  · exact ⟨_, handleMessage_init now msg h1, rfl, rfl, rfl, rfl, Or.inl ⟨rfl, _, rfl⟩⟩
  · by_cases h2 : msg.method = "tools/list"
    · exact ⟨_, handleMessage_toolsList now msg h2, rfl, rfl, rfl, rfl, Or.inl ⟨rfl, _, rfl⟩⟩
    · by_cases h3 : msg.method = "tools/call"
      · rw [handleMessage_toolCall now msg h3]
        exact handleToolCall_shape now msg
      · exact ⟨_, handleMessage_default now msg h1 h2 h3, rfl, rfl, rfl, rfl,
          Or.inr ⟨rfl, _, rfl, Or.inl rfl⟩⟩

theorem append_ne_empty (front rest : String) (h : front ≠ "") :
    front ++ rest ≠ "" := by
  intro hempty
  apply h
  have hdata := congrArg String.data hempty
  simp only [String.data_append] at hdata
  apply String.ext
  have := List.append_eq_nil.mp hdata
  exact this.1

theorem append_ne_right (front rest : String) (h : front ≠ "") : front ++ rest ≠ rest := by
  intro heq
  have hlen := congrArg String.length heq
  rw [String.length_append] at hlen
  have hzero : front.length = 0 := by omega
  exact h (String.ext (List.length_eq_zero.mp hzero))

/-- A response of `handleToolCall` without error holds exactly one text block. -/
theorem handleToolCall_success (now : Time) (msg response : MCPMessage)
    (h : handleToolCall now msg = some response) (herr : response.error = none) :
    ∃ text, response.result = Value.map [
      ("content", Value.mapSlice [[("type", Value.str "text"), ("text", Value.str text)]])] := by
  cases hparams : msg.params.asMap with
  | none =>
    rw [handleToolCall_invalidParams now msg hparams] at h
    injection h with h
    subst h
    exact absurd herr (by simp)
  | some params =>
    cases hname : (mapIndex params "name").asString with
    | none =>
      rw [handleToolCall_nameRequired now msg params hparams hname] at h
      injection h with h
      subst h
      exact absurd herr (by simp)
    | some name =>
      by_cases h1 : name = "echo"
      · subst h1
        rw [handleToolCall_echo now msg params hparams hname] at h
        injection h with h
        subst h
        exact ⟨_, rfl⟩
      · by_cases h2 : name = "timestamp"
        · subst h2
          rw [handleToolCall_timestamp now msg params hparams hname] at h
          injection h with h
          subst h
          exact ⟨_, rfl⟩
        · rw [handleToolCall_toolNotFound now msg params name hparams hname h1 h2] at h
          injection h with h
          subst h
          exact absurd herr (by simp)

theorem asMap_map (kvs : List (String × Value)) : (Value.map kvs).asMap = some kvs := rfl

theorem asString_str (s : String) : (Value.str s).asString = some s := rfl

theorem asMap_eq_some (v : Value) (kvs : List (String × Value)) (h : v.asMap = some kvs) :
    v = Value.map kvs := by
  cases v <;> simp [Value.asMap] at h
  rw [h]

theorem asString_eq_some (v : Value) (s : String) (h : v.asString = some s) :
    v = Value.str s := by
  cases v <;> simp [Value.asString] at h
  rw [h]

/-- The echo branch, with the message written as `echoMessage`. -/
theorem handleToolCall_echoMessage (now : Time) (msg : MCPMessage)
    (params : List (String × Value)) (h : msg.params.asMap = some params)
    (hname : (mapIndex params "name").asString = some "echo") :
    handleToolCall now msg = some {
      jsonrpc := "2.0"
      id := msg.id
      result := .map [
        ("content", .mapSlice [[
          ("type", .str "text"),
          ("text", .str ("Echo: " ++ echoMessage params))]])] } :=
  handleToolCall_echo now msg params h hname

/-- Two calls that agree on the id, on params being a mapping, on the name and, for
echo, on the message, get the same response from `handleToolCall`. -/
theorem handleToolCall_congr (now : Time) (m1 m2 : MCPMessage) (hid : m1.id = m2.id)
    (hmap : m1.params.asMap.isSome = m2.params.asMap.isSome)
    (hname : ∀ p1 p2, m1.params = Value.map p1 → m2.params = Value.map p2 →
      (mapIndex p1 "name").asString = (mapIndex p2 "name").asString)
    (hmessage : ∀ p1 p2, m1.params = Value.map p1 → m2.params = Value.map p2 →
      mapIndex p1 "name" = Value.str "echo" → echoMessage p1 = echoMessage p2) :
    handleToolCall now m1 = handleToolCall now m2 := by
  cases hp1 : m1.params.asMap with
  | none =>
    cases hp2 : m2.params.asMap with
    | none =>
      rw [handleToolCall_invalidParams now m1 hp1, handleToolCall_invalidParams now m2 hp2, hid]
    | some p2 => simp [hp1, hp2] at hmap
  | some p1 =>
    cases hp2 : m2.params.asMap with
    | none => simp [hp1, hp2] at hmap
    | some p2 =>
      have e1 := asMap_eq_some _ _ hp1
      have e2 := asMap_eq_some _ _ hp2
      have hn := hname p1 p2 e1 e2
      cases hn1 : (mapIndex p1 "name").asString with
      | none =>
        rw [handleToolCall_nameRequired now m1 p1 hp1 hn1,
          handleToolCall_nameRequired now m2 p2 hp2 (hn ▸ hn1), hid]
      | some name =>
        have hn2 : (mapIndex p2 "name").asString = some name := hn ▸ hn1
        by_cases h1 : name = "echo"
        · subst h1
          rw [handleToolCall_echoMessage now m1 p1 hp1 hn1,
            handleToolCall_echoMessage now m2 p2 hp2 hn2, hid,
            hmessage p1 p2 e1 e2 (asString_eq_some _ _ hn1)]
        · by_cases h2 : name = "timestamp"
          · subst h2
            rw [handleToolCall_timestamp now m1 p1 hp1 hn1,
              handleToolCall_timestamp now m2 p2 hp2 hn2, hid]
          · rw [handleToolCall_toolNotFound now m1 p1 name hp1 hn1 h1 h2,
              handleToolCall_toolNotFound now m2 p2 name hp2 hn2 h1 h2, hid]

/-! ## The wire format: encoding followed by decoding -/

mutual
theorem decoded_decodeValue : (j : JSON) → (decodeValue j).decoded = true
  | .null => rfl
  | .bool _ => rfl
  | .intLit _ => rfl
  | .floatLit _ => rfl
  | .string _ => rfl
  | .array items => by
    simp only [decodeValue, Value.decoded]
    exact decoded_decodeValues items
  | .object members => by
    simp only [decodeValue, Value.decoded]
    exact decoded_decodeMembers members
theorem decoded_decodeValues : (js : List JSON) → decodedAll (decodeValues js) = true
  | [] => rfl
  | j :: js => by
    simp only [decodeValues, decodedAll, Bool.and_eq_true]
    exact ⟨decoded_decodeValue j, decoded_decodeValues js⟩
theorem decoded_decodeMembers :
    (members : List (String × JSON)) → decodedMembers (decodeMembers members) = true
  | [] => rfl
  | (_, j) :: rest => by
    simp only [decodeMembers, decodedMembers, Bool.and_eq_true]
    exact ⟨decoded_decodeValue j, decoded_decodeMembers rest⟩
end

mutual
theorem decode_encode_of_decoded :
    (v : Value) → v.decoded = true → decodeValue (encodeValue v) = v
  | .nil, _ => rfl
  | .bool _, _ => rfl
  | .float64 _, _ => rfl
  | .str _, _ => rfl
  | .slice xs, h => by
    simp only [Value.decoded] at h
    simp only [encodeValue, decodeValue, decode_encode_values xs h]
  | .map kvs, h => by
    simp only [Value.decoded] at h
    simp only [encodeValue, decodeValue, decode_encode_members kvs h]
  | .num _, h => by simp [Value.decoded] at h
  | .mapSlice _, h => by simp [Value.decoded] at h
  | .strSlice _, h => by simp [Value.decoded] at h
  | .toolSlice _, h => by simp [Value.decoded] at h
theorem decode_encode_values :
    (vs : List Value) → decodedAll vs = true → decodeValues (encodeValues vs) = vs
  | [], _ => rfl
  | v :: vs, h => by
    simp only [decodedAll, Bool.and_eq_true] at h
    simp only [encodeValues, decodeValues, decode_encode_of_decoded v h.1,
      decode_encode_values vs h.2]
theorem decode_encode_members :
    (kvs : List (String × Value)) → decodedMembers kvs = true →
      decodeMembers (encodeMembers kvs) = kvs
  | [], _ => rfl
  | (k, v) :: kvs, h => by
    simp only [decodedMembers, Bool.and_eq_true] at h
    simp only [encodeMembers, decodeMembers, decode_encode_of_decoded v h.1,
      decode_encode_members kvs h.2]
end

theorem decode_encode_eq_iff (v : Value) :
    decodeValue (encodeValue v) = v ↔ v.decoded = true := by
  constructor
  · intro h
    rw [← h]
    exact decoded_decodeValue _
  · exact decode_encode_of_decoded v


theorem isNil_cases (v : Value) : v = Value.nil ∨ v.isNil = false := by
  cases v <;> simp [Value.isNil]

theorem decodeInterface_omitEmpty (key : String) (v : Value) :
    decodeInterface (JSON.member (omitEmpty key v) key) = decodeValue (encodeValue v) := by
  rcases isNil_cases v with rfl | h
  · rfl
  · simp [omitEmpty, h, JSON.member, decodeInterface]

theorem unmarshalError_marshalError (e : MCPError) :
    unmarshalError (some (marshalError e)) = some (some {
      code := e.code
      message := e.message
      data := decodeValue (encodeValue e.data) }) := by
  simp [unmarshalError, marshalError, JSON.member, decodeInt, decodeString,
    decodeInterface_omitEmpty]

theorem isNil_nil : Value.nil.isNil = true := rfl

theorem decode_encode_nil : decodeValue (encodeValue Value.nil) = Value.nil := rfl

theorem decodeString_string (s : String) : decodeString (some (JSON.string s)) = some s := rfl

theorem decodeString_none : decodeString none = some "" := rfl

theorem unmarshalError_none : unmarshalError none = some none := rfl

theorem decodeInterface_none : decodeInterface none = Value.nil := rfl

theorem decodeInterface_some (j : JSON) : decodeInterface (some j) = decodeValue j := rfl

theorem unmarshal_marshal (msg : MCPMessage) :
    unmarshal (marshal msg) = some {
      jsonrpc := msg.jsonrpc
      id := decodeValue (encodeValue msg.id)
      method := msg.method
      params := decodeValue (encodeValue msg.params)
      result := decodeValue (encodeValue msg.result)
      error := msg.error.map fun e => {
        code := e.code
        message := e.message
        data := decodeValue (encodeValue e.data) } } := by
  obtain ⟨jsonrpc, id, method, params, result, error⟩ := msg
  rcases isNil_cases id with rfl | hid <;> rcases isNil_cases params with rfl | hparams <;>
    rcases isNil_cases result with rfl | hresult <;> by_cases hmethod : method = "" <;>
    cases error <;>
    simp [marshal, unmarshal, omitEmpty, JSON.member, decodeString_string, decodeString_none,
      decodeInterface_none, decodeInterface_some, unmarshalError_none,
      unmarshalError_marshalError, isNil_nil, decode_encode_nil, *]


theorem map_error_eq_iff (error : Option MCPError) :
    (error.map fun e => ({
        code := e.code
        message := e.message
        data := decodeValue (encodeValue e.data) } : MCPError)) = error ↔
      (match error with
        | none => true
        | some e => e.data.decoded) = true := by
  cases error with
  | none => simp
  | some e =>
    obtain ⟨code, message, data⟩ := e
    simp [decode_encode_eq_iff]

theorem unmarshal_marshal_eq_iff (msg : MCPMessage) :
    unmarshal (marshal msg) = some msg ↔ msg.decoded = true := by
  rw [unmarshal_marshal]
  obtain ⟨jsonrpc, id, method, params, result, error⟩ := msg
  simp only [Option.some.injEq, MCPMessage.mk.injEq, true_and, decode_encode_eq_iff,
    map_error_eq_iff, MCPMessage.decoded, Bool.and_eq_true, and_assoc]

/-! ## The claims -/

/-- C1: a tools/call message whose params is a mapping with name "echo" and whose
arguments is a mapping with message `s` is answered, whatever the id, by a response
without error that echoes the id and whose `result.content[0].text` is "Echo: "
followed by `s`. -/
theorem C1_echo_text (now : Time) (msg : MCPMessage) (params arguments : List (String × Value))
    (s : String) (hmethod : msg.method = "tools/call")
    (hparams : msg.params = Value.map params)
    (hname : mapIndex params "name" = Value.str "echo")
    (harguments : mapIndex params "arguments" = Value.map arguments)
    (hmessage : mapIndex arguments "message" = Value.str s) :
    ∃ response, handleMessage now msg = some response ∧ response.error = none ∧
      response.id = msg.id ∧ contentText response = some ("Echo: " ++ s) := by
  have hcall := handleToolCall_echo now msg params (by simp [hparams, Value.asMap])
    (by simp [hname, Value.asString])
  rw [← handleMessage_toolCall now msg hmethod] at hcall
  refine ⟨_, hcall, rfl, rfl, ?_⟩
  simp [contentText, Value.asMap, Value.asMapSlice, Value.asString, mapIndex, harguments,
    hmessage]

/-- Witness of C1: the request of the echo test, with id 1 and message "test message". -/
theorem C1_echo_text_witness :
    ∃ response,
      handleMessage (Time.mk 2024 1 15 10 30 0 0)
        { jsonrpc := "2.0", id := Value.num 1, method := "tools/call",
          params := Value.map [("name", Value.str "echo"),
            ("arguments", Value.map [("message", Value.str "test message")])] } = some response ∧
      response.error = none ∧ response.id = Value.num 1 ∧
      contentText response = some ("Echo: " ++ "test message") :=
  C1_echo_text (Time.mk 2024 1 15 10 30 0 0)
    { jsonrpc := "2.0", id := Value.num 1, method := "tools/call",
      params := Value.map [("name", Value.str "echo"),
        ("arguments", Value.map [("message", Value.str "test message")])] }
    [("name", Value.str "echo"),
      ("arguments", Value.map [("message", Value.str "test message")])]
    [("message", Value.str "test message")] "test message" rfl rfl rfl rfl rfl

/-- C2: a message whose method is none of "initialize", "tools/list", "tools/call" is
answered by a response with error code -32601, error message "Method not found: "
followed by the method, no result, and the id of the request. -/
theorem C2_unknown_method (now : Time) (msg : MCPMessage)
    (h1 : msg.method ≠ "initialize") (h2 : msg.method ≠ "tools/list")
    (h3 : msg.method ≠ "tools/call") :
    ∃ response e, handleMessage now msg = some response ∧ response.error = some e ∧
      e.code = -32601 ∧ e.message = "Method not found: " ++ msg.method ∧
      response.result = Value.nil ∧ response.id = msg.id :=
  ⟨_, _, handleMessage_default now msg h1 h2 h3, rfl, rfl, rfl, rfl, rfl⟩

/-- Witness of C2: the near miss "Initialize", with a string id. -/
theorem C2_unknown_method_witness :
    ∃ response e,
      handleMessage (Time.mk 2024 1 15 10 30 0 0)
        { jsonrpc := "2.0", id := Value.str "req-7", method := "Initialize" } = some response ∧
      response.error = some e ∧ e.code = -32601 ∧
      e.message = "Method not found: " ++ "Initialize" ∧
      response.result = Value.nil ∧ response.id = Value.str "req-7" :=
  C2_unknown_method (Time.mk 2024 1 15 10 30 0 0)
    { jsonrpc := "2.0", id := Value.str "req-7", method := "Initialize" }
    (by decide) (by decide) (by decide)

/-- C3: a tools/call message whose params is a mapping with a string name other than
"echo" and "timestamp" is answered, whatever the arguments, by a response with error
code -32601, error message "Tool not found: " followed by the name, and no result. -/
theorem C3_unknown_tool (now : Time) (msg : MCPMessage) (params : List (String × Value))
    (name : String) (hmethod : msg.method = "tools/call")
    (hparams : msg.params = Value.map params)
    (hname : mapIndex params "name" = Value.str name)
    (h1 : name ≠ "echo") (h2 : name ≠ "timestamp") :
    ∃ response e, handleMessage now msg = some response ∧ response.error = some e ∧
      e.code = -32601 ∧ e.message = "Tool not found: " ++ name ∧
      response.result = Value.nil := by
  have hcall := handleToolCall_toolNotFound now msg params name
    (by simp [hparams, Value.asMap]) (by simp [hname, Value.asString]) h1 h2
  rw [← handleMessage_toolCall now msg hmethod] at hcall
  exact ⟨_, _, hcall, rfl, rfl, rfl, rfl⟩

/-- Witness of C3: the tool name "nonexistent", with arguments present. -/
theorem C3_unknown_tool_witness :
    ∃ response e,
      handleMessage (Time.mk 2024 1 15 10 30 0 0)
        { jsonrpc := "2.0", id := Value.num 3, method := "tools/call",
          params := Value.map [("name", Value.str "nonexistent"),
            ("arguments", Value.map [("message", Value.str "hi")])] } = some response ∧
      response.error = some e ∧ e.code = -32601 ∧
      e.message = "Tool not found: " ++ "nonexistent" ∧ response.result = Value.nil :=
  C3_unknown_tool (Time.mk 2024 1 15 10 30 0 0)
    { jsonrpc := "2.0", id := Value.num 3, method := "tools/call",
      params := Value.map [("name", Value.str "nonexistent"),
        ("arguments", Value.map [("message", Value.str "hi")])] }
    [("name", Value.str "nonexistent"), ("arguments", Value.map [("message", Value.str "hi")])]
    "nonexistent" rfl rfl rfl (by decide) (by decide)

/-- C4: a tools/call message whose params is not a mapping (absent, a string, a number,
a list, a boolean: the assertion to a mapping fails) is answered by a response with
error code -32602, error message "Invalid params", and no result. -/
theorem C4_params_not_mapping (now : Time) (msg : MCPMessage)
    (hmethod : msg.method = "tools/call") (hparams : msg.params.asMap = none) :
    ∃ response e, handleMessage now msg = some response ∧ response.error = some e ∧
      e.code = -32602 ∧ e.message = "Invalid params" ∧ response.result = Value.nil := by
  have hcall := handleToolCall_invalidParams now msg hparams
  rw [← handleMessage_toolCall now msg hmethod] at hcall
  exact ⟨_, _, hcall, rfl, rfl, rfl, rfl⟩

/-- Witness of C4: params is a bare string. -/
theorem C4_params_not_mapping_witness :
    ∃ response e,
      handleMessage (Time.mk 2024 1 15 10 30 0 0)
        { jsonrpc := "2.0", id := Value.num 4, method := "tools/call",
          params := Value.str "echo" } = some response ∧
      response.error = some e ∧ e.code = -32602 ∧ e.message = "Invalid params" ∧
      response.result = Value.nil :=
  C4_params_not_mapping (Time.mk 2024 1 15 10 30 0 0)
    { jsonrpc := "2.0", id := Value.num 4, method := "tools/call", params := Value.str "echo" }
    rfl rfl

/-- C5: a tools/call message whose params is a mapping in which the key name is missing
or holds a value that is not a string is answered, whatever the other keys hold, by a
response with error code -32602, error message "Tool name is required", and no result. -/
theorem C5_name_required (now : Time) (msg : MCPMessage) (params : List (String × Value))
    (hmethod : msg.method = "tools/call") (hparams : msg.params = Value.map params)
    (hname : (mapIndex params "name").asString = none) :
    ∃ response e, handleMessage now msg = some response ∧ response.error = some e ∧
      e.code = -32602 ∧ e.message = "Tool name is required" ∧
      response.result = Value.nil := by
  have hcall := handleToolCall_nameRequired now msg params
    (by simp [hparams, Value.asMap]) hname
  rw [← handleMessage_toolCall now msg hmethod] at hcall
  exact ⟨_, _, hcall, rfl, rfl, rfl, rfl⟩

/-- Witness of C5: name holds a number, next to well-formed arguments. -/
theorem C5_name_required_witness :
    ∃ response e,
      handleMessage (Time.mk 2024 1 15 10 30 0 0)
        { jsonrpc := "2.0", id := Value.num 5, method := "tools/call",
          params := Value.map [("name", Value.num 42),
            ("arguments", Value.map [("message", Value.str "hi")])] } = some response ∧
      response.error = some e ∧ e.code = -32602 ∧ e.message = "Tool name is required" ∧
      response.result = Value.nil :=
  C5_name_required (Time.mk 2024 1 15 10 30 0 0)
    { jsonrpc := "2.0", id := Value.num 5, method := "tools/call",
      params := Value.map [("name", Value.num 42),
        ("arguments", Value.map [("message", Value.str "hi")])] }
    [("name", Value.num 42), ("arguments", Value.map [("message", Value.str "hi")])]
    rfl rfl rfl

/-- C6: an initialize message is answered, whatever its params and id, by a response
without error whose result is the fixed mapping with protocolVersion "2024-11-05",
capabilities with an empty tools mapping, and serverInfo naming "mcp-go-server",
version "1.0.0"; replacing params leaves the response unchanged. -/
theorem C6_initialize_fixed (now : Time) (msg : MCPMessage)
    (hmethod : msg.method = "initialize") :
    ∃ response, handleMessage now msg = some response ∧ response.error = none ∧
      response.id = msg.id ∧
      response.result = Value.map [
        ("protocolVersion", Value.str "2024-11-05"),
        ("capabilities", Value.map [("tools", Value.map [])]),
        ("serverInfo", Value.map [
          ("name", Value.str "mcp-go-server"), ("version", Value.str "1.0.0")])] ∧
      ∀ params : Value, handleMessage now { msg with params := params } = some response := by
  refine ⟨_, handleMessage_init now msg hmethod, rfl, rfl, rfl, ?_⟩
  intro params
  exact handleMessage_init now { msg with params := params } hmethod

/-- Witness of C6: the request of the initialize test. -/
theorem C6_initialize_fixed_witness :
    ∃ response,
      handleMessage (Time.mk 2024 1 15 10 30 0 0)
        { jsonrpc := "2.0", id := Value.num 1, method := "initialize",
          params := Value.map [("protocolVersion", Value.str "2024-11-05")] } = some response ∧
      response.error = none ∧ response.id = Value.num 1 ∧
      response.result = Value.map [
        ("protocolVersion", Value.str "2024-11-05"),
        ("capabilities", Value.map [("tools", Value.map [])]),
        ("serverInfo", Value.map [
          ("name", Value.str "mcp-go-server"), ("version", Value.str "1.0.0")])] ∧
      ∀ params : Value,
        handleMessage (Time.mk 2024 1 15 10 30 0 0)
          { jsonrpc := "2.0", id := Value.num 1, method := "initialize",
            params := params } = some response :=
  C6_initialize_fixed (Time.mk 2024 1 15 10 30 0 0)
    { jsonrpc := "2.0", id := Value.num 1, method := "initialize",
      params := Value.map [("protocolVersion", Value.str "2024-11-05")] } rfl

/-- C7: a tools/list message is answered, whatever its params and id, by a response
without error whose result holds under tools exactly the two entries echo and
timestamp, in that order, with distinct names; each entry has a non-empty name, a
non-empty description, and an inputSchema that is a mapping with type "object" and a
properties mapping. -/
theorem C7_tools_catalog (now : Time) (msg : MCPMessage)
    (hmethod : msg.method = "tools/list") :
    ∃ response tools, handleMessage now msg = some response ∧ response.error = none ∧
      response.result = Value.map [("tools", Value.toolSlice tools)] ∧
      tools.map Tool.name = ["echo", "timestamp"] ∧ (tools.map Tool.name).Nodup ∧
      ∀ tool ∈ tools, tool.name ≠ "" ∧ tool.description ≠ "" ∧
        ∃ schema properties, tool.inputSchema = Value.map schema ∧
          mapIndex schema "type" = Value.str "object" ∧
          mapIndex schema "properties" = Value.map properties := by
  refine ⟨_, _, handleMessage_toolsList now msg hmethod, rfl, rfl, rfl, ?_, ?_⟩
  · simp [Tool.name]
  · intro tool htool
    simp only [List.mem_cons, List.mem_singleton, List.not_mem_nil, or_false] at htool
    rcases htool with h | h
    · subst h
      exact ⟨by decide, by decide, _, _, rfl, rfl, rfl⟩
    · subst h
      exact ⟨by decide, by decide, _, _, rfl, rfl, rfl⟩

/-- Witness of C7: the request of the tools/list test. -/
theorem C7_tools_catalog_witness :
    ∃ response tools,
      handleMessage (Time.mk 2024 1 15 10 30 0 0)
        { jsonrpc := "2.0", id := Value.num 1, method := "tools/list" } = some response ∧
      response.error = none ∧
      response.result = Value.map [("tools", Value.toolSlice tools)] ∧
      tools.map Tool.name = ["echo", "timestamp"] ∧ (tools.map Tool.name).Nodup ∧
      ∀ tool ∈ tools, tool.name ≠ "" ∧ tool.description ≠ "" ∧
        ∃ schema properties, tool.inputSchema = Value.map schema ∧
          mapIndex schema "type" = Value.str "object" ∧
          mapIndex schema "properties" = Value.map properties :=
  C7_tools_catalog (Time.mk 2024 1 15 10 30 0 0)
    { jsonrpc := "2.0", id := Value.num 1, method := "tools/list" } rfl

/-- Counterexample to C8 as stated: at the clock reading 2024-01-15T10:30:00Z the
timestamp tool answers "Current timestamp: 2024-01-15T10:30:00Z", which begins with
the letter C and is not the RFC 3339 formatting "2024-01-15T10:30:00Z" of the reading. -/
theorem C8_counterexample :
    ∃ response,
      handleMessage (Time.mk 2024 1 15 10 30 0 0)
        { jsonrpc := "2.0", id := Value.num 1, method := "tools/call",
          params := Value.map [("name", Value.str "timestamp"),
            ("arguments", Value.map [])] } = some response ∧
      (Time.mk 2024 1 15 10 30 0 0).formatRFC3339 = "2024-01-15T10:30:00Z" ∧
      contentText response = some "Current timestamp: 2024-01-15T10:30:00Z" ∧
      contentText response ≠ some (Time.mk 2024 1 15 10 30 0 0).formatRFC3339 :=
  ⟨_, rfl, by decide, by decide, by decide⟩

/-- C8, amended: a tools/call message whose params is a mapping with name "timestamp" is
answered, whatever the arguments and for every clock reading, by a response without
error whose `result.content[0].text` is "Current timestamp: " followed by the RFC 3339
formatting of the reading; the text is not empty, and it is the part after that prefix,
not the whole text, that is the formatting of the reading. -/
theorem C8_timestamp_text (now : Time) (msg : MCPMessage) (params : List (String × Value))
    (hmethod : msg.method = "tools/call") (hparams : msg.params = Value.map params)
    (hname : mapIndex params "name" = Value.str "timestamp") :
    ∃ response text, handleMessage now msg = some response ∧ response.error = none ∧
      contentText response = some text ∧
      text = "Current timestamp: " ++ now.formatRFC3339 ∧ text ≠ "" ∧
      text ≠ now.formatRFC3339 := by
  have hcall := handleToolCall_timestamp now msg params (by simp [hparams, Value.asMap])
    (by simp [hname, Value.asString])
  rw [← handleMessage_toolCall now msg hmethod] at hcall
  exact ⟨_, _, hcall, rfl, rfl, rfl, append_ne_empty _ _ (by decide),
    append_ne_right _ _ (by decide)⟩

/-- Witness of C8, amended: the request of the timestamp test at an offset of +05:30. -/
theorem C8_timestamp_text_witness :
    ∃ response text,
      handleMessage (Time.mk 2024 1 15 16 0 0 19800)
        { jsonrpc := "2.0", id := Value.num 1, method := "tools/call",
          params := Value.map [("name", Value.str "timestamp"),
            ("arguments", Value.map [])] } = some response ∧
      response.error = none ∧ contentText response = some text ∧
      text = "Current timestamp: " ++ (Time.mk 2024 1 15 16 0 0 19800).formatRFC3339 ∧
      text ≠ "" ∧ text ≠ (Time.mk 2024 1 15 16 0 0 19800).formatRFC3339 :=
  C8_timestamp_text (Time.mk 2024 1 15 16 0 0 19800)
    { jsonrpc := "2.0", id := Value.num 1, method := "tools/call",
      params := Value.map [("name", Value.str "timestamp"), ("arguments", Value.map [])] }
    [("name", Value.str "timestamp"), ("arguments", Value.map [])] rfl rfl rfl

/-- C9: for every message `handleMessage` returns a response, never an absent one, and
the response carries exactly one of result and error: the result is present if and
only if the error is absent. -/
theorem C9_result_xor_error (now : Time) (msg : MCPMessage) :
    ∃ response, handleMessage now msg = some response ∧
      (response.result ≠ Value.nil ↔ response.error = none) := by
  obtain ⟨response, hresp, _, _, _, _, hshape⟩ := handleMessage_shape now msg
  refine ⟨response, hresp, ?_⟩
  rcases hshape with ⟨herr, kvs, hres⟩ | ⟨hres, e, herr, _⟩
  · simp [herr, hres]
  · simp [herr, hres]

/-- C10: for every message the response of `handleMessage` has the tag "2.0" and the id
of the request, whatever it is, on the success paths and on the error paths alike,
and it carries no method and no params. -/
theorem C10_tag_and_id (now : Time) (msg : MCPMessage) :
    ∃ response, handleMessage now msg = some response ∧ response.jsonrpc = "2.0" ∧
      response.id = msg.id ∧ response.method = "" ∧ response.params = Value.nil := by
  obtain ⟨response, hresp, htag, hid, hmethod, hparams, _⟩ := handleMessage_shape now msg
  exact ⟨response, hresp, htag, hid, hmethod, hparams⟩

/-- C11: a tools/call message whose response has no error has as result a mapping
whose only key is content, holding a sequence of exactly one block, which is a mapping
with type "text" and a string text. -/
theorem C11_result_shape (now : Time) (msg response : MCPMessage)
    (hmethod : msg.method = "tools/call") (hresp : handleMessage now msg = some response)
    (herr : response.error = none) :
    ∃ text : String, response.result = Value.map [
      ("content", Value.mapSlice [[("type", Value.str "text"), ("text", Value.str text)]])] := by
  rw [handleMessage_toolCall now msg hmethod] at hresp
  exact handleToolCall_success now msg response hresp herr

/-- Witness of C11: the request of the timestamp test and its response. -/
theorem C11_result_shape_witness :
    ∃ text : String,
      (MCPMessage.mk "2.0" (Value.num 1) "" Value.nil
        (Value.map [("content", Value.mapSlice [[("type", Value.str "text"),
          ("text", Value.str ("Current timestamp: " ++
            (Time.mk 2024 1 15 10 30 0 0).formatRFC3339))]])]) none).result =
      Value.map [
        ("content", Value.mapSlice [[("type", Value.str "text"), ("text", Value.str text)]])] :=
  C11_result_shape (Time.mk 2024 1 15 10 30 0 0)
    { jsonrpc := "2.0", id := Value.num 1, method := "tools/call",
      params := Value.map [("name", Value.str "timestamp"), ("arguments", Value.map [])] }
    (MCPMessage.mk "2.0" (Value.num 1) "" Value.nil
      (Value.map [("content", Value.mapSlice [[("type", Value.str "text"),
        ("text", Value.str ("Current timestamp: " ++
          (Time.mk 2024 1 15 10 30 0 0).formatRFC3339))]])]) none)
    rfl rfl rfl

/-- C12: a tools/call message whose params is a mapping with name "echo", and in which
arguments is absent or not a mapping, or is a mapping whose message is missing or not a
string, is answered by a response without error whose `result.content[0].text` is
exactly "Echo: ": the message counts as the empty string. -/
theorem C12_echo_default (now : Time) (msg : MCPMessage) (params : List (String × Value))
    (hmethod : msg.method = "tools/call") (hparams : msg.params = Value.map params)
    (hname : mapIndex params "name" = Value.str "echo")
    (harguments : (mapIndex params "arguments").asMap = none ∨
      ∃ arguments, mapIndex params "arguments" = Value.map arguments ∧
        (mapIndex arguments "message").asString = none) :
    ∃ response, handleMessage now msg = some response ∧ response.error = none ∧
      contentText response = some "Echo: " := by
  have hcall := handleToolCall_echo now msg params (by simp [hparams, Value.asMap])
    (by simp [hname, Value.asString])
  rw [← handleMessage_toolCall now msg hmethod] at hcall
  have hempty : ((mapIndex (((mapIndex params "arguments").asMap).getD []) "message").asString).getD
      "" = "" := by
    rcases harguments with hnone | ⟨arguments, hsome, hmessage⟩
    · rw [hnone]
      rfl
    · rw [hsome, asMap_map, Option.getD_some, hmessage]
      rfl
  rw [hempty] at hcall
  exact ⟨_, hcall, rfl, rfl⟩

/-- Witness of C12: arguments is a mapping whose message holds a number. -/
theorem C12_echo_default_witness :
    ∃ response,
      handleMessage (Time.mk 2024 1 15 10 30 0 0)
        { jsonrpc := "2.0", id := Value.num 12, method := "tools/call",
          params := Value.map [("name", Value.str "echo"),
            ("arguments", Value.map [("message", Value.num 7)])] } = some response ∧
      response.error = none ∧ contentText response = some "Echo: " :=
  C12_echo_default (Time.mk 2024 1 15 10 30 0 0)
    { jsonrpc := "2.0", id := Value.num 12, method := "tools/call",
      params := Value.map [("name", Value.str "echo"),
        ("arguments", Value.map [("message", Value.num 7)])] }
    [("name", Value.str "echo"), ("arguments", Value.map [("message", Value.num 7)])]
    rfl rfl rfl (Or.inr ⟨[("message", Value.num 7)], rfl, rfl⟩)

/-- Counterexample to C13 as stated: the envelope of `TestMCPMessage`, whose id is the
`int` 1, is decoded from its encoding with the `float64` 1 as id, so the decoded
envelope is not the original one. -/
theorem C13_counterexample :
    unmarshal (marshal
      { jsonrpc := "2.0", id := Value.num 1, method := "test",
        params := Value.map [("key", Value.str "value")] }) =
      some
        { jsonrpc := "2.0", id := Value.float64 1, method := "test",
          params := Value.map [("key", Value.str "value")] } ∧
    unmarshal (marshal
      { jsonrpc := "2.0", id := Value.num 1, method := "test",
        params := Value.map [("key", Value.str "value")] }) ≠
      some
        { jsonrpc := "2.0", id := Value.num 1, method := "test",
          params := Value.map [("key", Value.str "value")] } :=
  ⟨rfl, fun h => by
    have h2 : (some (MCPMessage.mk "2.0" (Value.float64 1) "test"
        (Value.map [("key", Value.str "value")]) Value.nil none)) =
      some (MCPMessage.mk "2.0" (Value.num 1) "test"
        (Value.map [("key", Value.str "value")]) Value.nil none) := h
    injection h2 with h2
    injection h2 with _ hid
    cases hid⟩

/-- C13, amended: for every envelope, decoding its JSON encoding succeeds and gives an
envelope with the same jsonrpc and the same method; the decoded envelope is equal to the
original exactly when id, params, result and the data of the error hold only values of
the types the decoder produces. -/
theorem C13_round_trip (msg : MCPMessage) :
    ∃ back, unmarshal (marshal msg) = some back ∧ back.jsonrpc = msg.jsonrpc ∧
      back.method = msg.method ∧ (back = msg ↔ msg.decoded = true) := by
  refine ⟨_, unmarshal_marshal msg, rfl, rfl, ?_⟩
  rw [← unmarshal_marshal_eq_iff, unmarshal_marshal, Option.some.injEq]

/-- Witness of C13, amended: an envelope off the wire, with a number as id, a result and
an error, is decoded from its encoding unchanged. -/
theorem C13_round_trip_witness :
    unmarshal (marshal
      { jsonrpc := "2.0", id := Value.float64 1,
        result := Value.map [("content", Value.slice [Value.map [("type", Value.str "text")]])],
        error := some { code := -32601, message := "Method not found: x" } }) =
      some
        { jsonrpc := "2.0", id := Value.float64 1,
          result := Value.map [("content", Value.slice [Value.map [("type", Value.str "text")]])],
          error := some { code := -32601, message := "Method not found: x" } } :=
  match C13_round_trip
      { jsonrpc := "2.0", id := Value.float64 1,
        result := Value.map [("content", Value.slice [Value.map [("type", Value.str "text")]])],
        error := some { code := -32601, message := "Method not found: x" } } with
  | ⟨_, h, _, _, hiff⟩ => (hiff.mpr rfl) ▸ h

/-- C14: when the response of `handleMessage` carries an error, its code is -32601 or
-32602; the code -32603 of the execution-failure branch is never returned. -/
theorem C14_error_codes (now : Time) (msg response : MCPMessage) (e : MCPError)
    (hresp : handleMessage now msg = some response) (herr : response.error = some e) :
    (e.code = -32601 ∨ e.code = -32602) ∧ e.code ≠ -32603 := by
  obtain ⟨r, hr, _, _, _, _, hshape⟩ := handleMessage_shape now msg
  rw [hresp] at hr
  injection hr with hr
  subst hr
  rcases hshape with ⟨hnone, _⟩ | ⟨_, e1, hsome, hcode⟩
  · rw [herr] at hnone
    exact absurd hnone (by simp)
  · rw [herr] at hsome
    injection hsome with hsome
    subst hsome
    rcases hcode with h | h <;> rw [h] <;> decide

/-- Witness of C14: a well-formed echo call to a tool that does not exist. -/
theorem C14_error_codes_witness :
    ((MCPError.mk (-32601) "Tool not found: fail" Value.nil).code = -32601 ∨
      (MCPError.mk (-32601) "Tool not found: fail" Value.nil).code = -32602) ∧
    (MCPError.mk (-32601) "Tool not found: fail" Value.nil).code ≠ -32603 :=
  C14_error_codes (Time.mk 2024 1 15 10 30 0 0)
    { jsonrpc := "2.0", id := Value.num 14, method := "tools/call",
      params := Value.map [("name", Value.str "fail")] }
    { jsonrpc := "2.0", id := Value.num 14,
      error := some { code := -32601, message := "Tool not found: fail" } }
    { code := -32601, message := "Tool not found: fail" } rfl rfl

/-- C15: the dispatcher routes by exact match on the method: the response of
`handleMessage` is the response of `handleInitialize` for "initialize", of
`handleToolsList` for "tools/list", and of `handleToolCall` for "tools/call",
unchanged. -/
theorem C15_pure_routing (now : Time) (msg : MCPMessage) :
    (msg.method = "initialize" → handleMessage now msg = handleInitialize msg) ∧
    (msg.method = "tools/list" → handleMessage now msg = handleToolsList msg) ∧
    (msg.method = "tools/call" → handleMessage now msg = handleToolCall now msg) :=
  ⟨handleMessage_init now msg, handleMessage_toolsList now msg, handleMessage_toolCall now msg⟩

/-- Witness of C15: one message for each of the three methods. -/
theorem C15_pure_routing_witness :
    handleMessage (Time.mk 2024 1 15 10 30 0 0) { jsonrpc := "2.0", method := "initialize" } =
      handleInitialize { jsonrpc := "2.0", method := "initialize" } ∧
    handleMessage (Time.mk 2024 1 15 10 30 0 0) { jsonrpc := "2.0", method := "tools/list" } =
      handleToolsList { jsonrpc := "2.0", method := "tools/list" } ∧
    handleMessage (Time.mk 2024 1 15 10 30 0 0)
        { jsonrpc := "2.0", method := "tools/call", params := Value.str "x" } =
      handleToolCall (Time.mk 2024 1 15 10 30 0 0)
        { jsonrpc := "2.0", method := "tools/call", params := Value.str "x" } :=
  ⟨(C15_pure_routing (Time.mk 2024 1 15 10 30 0 0)
      { jsonrpc := "2.0", method := "initialize" }).1 rfl,
    (C15_pure_routing (Time.mk 2024 1 15 10 30 0 0)
      { jsonrpc := "2.0", method := "tools/list" }).2.1 rfl,
    (C15_pure_routing (Time.mk 2024 1 15 10 30 0 0)
      { jsonrpc := "2.0", method := "tools/call", params := Value.str "x" }).2.2 rfl⟩

/-- C16: the catalog and the dispatch agree: a tools/call with the string name `n` gets
the error -32601 "Tool not found" exactly when `n` names no entry of the tools returned
by tools/list, and it gets no error when `n` names one. -/
theorem C16_catalog_agrees (now : Time) (listMsg msg : MCPMessage)
    (params : List (String × Value)) (n : String)
    (hlist : listMsg.method = "tools/list") (hmethod : msg.method = "tools/call")
    (hparams : msg.params = Value.map params) (hname : mapIndex params "name" = Value.str n) :
    ∃ listResponse tools response, handleMessage now listMsg = some listResponse ∧
      toolsOf listResponse = some tools ∧ handleMessage now msg = some response ∧
      (response.error = some { code := -32601, message := "Tool not found: " ++ n } ↔
        n ∉ tools.map Tool.name) ∧
      (n ∈ tools.map Tool.name → response.error = none) := by
  have hp : msg.params.asMap = some params := by rw [hparams]; rfl
  have hn : (mapIndex params "name").asString = some n := by rw [hname]; rfl
  have hl := handleMessage_toolsList now listMsg hlist
  rw [handleMessage_toolCall now msg hmethod]
  by_cases h1 : n = "echo"
  · subst h1
    exact ⟨_, _, _, hl, rfl, handleToolCall_echo now msg params hp hn, by simp [Tool.name],
      fun _ => rfl⟩
  · by_cases h2 : n = "timestamp"
    · subst h2
      exact ⟨_, _, _, hl, rfl, handleToolCall_timestamp now msg params hp hn,
        by simp [Tool.name], fun _ => rfl⟩
    · exact ⟨_, _, _, hl, rfl, handleToolCall_toolNotFound now msg params n hp hn h1 h2,
        by simp [Tool.name, h1, h2], fun hmem => by simp [Tool.name, h1, h2] at hmem⟩

/-- Witness of C16: the tool name "timestamp" against the catalog of the tools/list test. -/
theorem C16_catalog_agrees_witness :
    ∃ listResponse tools response,
      handleMessage (Time.mk 2024 1 15 10 30 0 0)
        { jsonrpc := "2.0", id := Value.num 1, method := "tools/list" } = some listResponse ∧
      toolsOf listResponse = some tools ∧
      handleMessage (Time.mk 2024 1 15 10 30 0 0)
        { jsonrpc := "2.0", id := Value.num 2, method := "tools/call",
          params := Value.map [("name", Value.str "timestamp")] } = some response ∧
      (response.error = some { code := -32601, message := "Tool not found: " ++ "timestamp" } ↔
        "timestamp" ∉ tools.map Tool.name) ∧
      ("timestamp" ∈ tools.map Tool.name → response.error = none) :=
  C16_catalog_agrees (Time.mk 2024 1 15 10 30 0 0)
    { jsonrpc := "2.0", id := Value.num 1, method := "tools/list" }
    { jsonrpc := "2.0", id := Value.num 2, method := "tools/call",
      params := Value.map [("name", Value.str "timestamp")] }
    [("name", Value.str "timestamp")] "timestamp" rfl rfl rfl rfl

/-- C17: two tools/call messages read at the same clock that agree on the id, on
whether params is a mapping, on the string held by the name and, for echo, on the
message read from the arguments, get equal responses, whatever else params and
arguments hold and whatever the tag, result and error of the requests are. -/
theorem C17_depends_only_on (now : Time) (m1 m2 : MCPMessage)
    (h1 : m1.method = "tools/call") (h2 : m2.method = "tools/call") (hid : m1.id = m2.id)
    (hmap : m1.params.asMap.isSome = m2.params.asMap.isSome)
    (hname : ∀ p1 p2, m1.params = Value.map p1 → m2.params = Value.map p2 →
      (mapIndex p1 "name").asString = (mapIndex p2 "name").asString)
    (hmessage : ∀ p1 p2, m1.params = Value.map p1 → m2.params = Value.map p2 →
      mapIndex p1 "name" = Value.str "echo" → echoMessage p1 = echoMessage p2) :
    handleMessage now m1 = handleMessage now m2 := by
  rw [handleMessage_toolCall now m1 h1, handleMessage_toolCall now m2 h2]
  exact handleToolCall_congr now m1 m2 hid hmap hname hmessage

/-- Witness of C17: two echo calls with the same id and message that differ in the tag,
in a stray result and error, and in extra keys of params and of arguments. -/
theorem C17_depends_only_on_witness :
    handleMessage (Time.mk 2024 1 15 10 30 0 0)
        { jsonrpc := "2.0", id := Value.str "a", method := "tools/call",
          params := Value.map [("name", Value.str "echo"),
            ("arguments", Value.map [("message", Value.str "hi")])] } =
      handleMessage (Time.mk 2024 1 15 10 30 0 0)
        { jsonrpc := "1.0", id := Value.str "a", method := "tools/call",
          params := Value.map [("extra", Value.bool true), ("name", Value.str "echo"),
            ("arguments", Value.map [("other", Value.num 3), ("message", Value.str "hi")])],
          result := Value.str "stray",
          error := some { code := 1, message := "stray" } } :=
  C17_depends_only_on (Time.mk 2024 1 15 10 30 0 0)
    { jsonrpc := "2.0", id := Value.str "a", method := "tools/call",
      params := Value.map [("name", Value.str "echo"),
        ("arguments", Value.map [("message", Value.str "hi")])] }
    { jsonrpc := "1.0", id := Value.str "a", method := "tools/call",
      params := Value.map [("extra", Value.bool true), ("name", Value.str "echo"),
        ("arguments", Value.map [("other", Value.num 3), ("message", Value.str "hi")])],
      result := Value.str "stray",
      error := some { code := 1, message := "stray" } }
    rfl rfl rfl rfl
    (fun p1 p2 e1 e2 => by cases e1; cases e2; rfl)
    (fun p1 p2 e1 e2 _ => by cases e1; cases e2; rfl)

end MCP
